import Mathlib

/-!
Verification development for the rainbond-offline-installer (roi) cluster
bootstrap orchestrator.  The definitions below are a shallow embedding of
the Go sources:

  internal/rke2/rke2.go   (topology resolution, phased rollout, state
                           probing, artifact transfer, taint policy,
                           generated configuration files)
  pkg/config/config.go    (configuration post-processing, MySQL default)

Remote effects (ssh commands, file transfers, service probes) are modelled
by an oracle giving the outcome of each remote observation, and the
orchestrator is a pure function of the host list and that oracle which
returns its result together with the trace of side-effecting operations it
issued.
-/

namespace Roi

/-! ### String helpers

The Go code normalises role strings with strings.ToLower and
strings.TrimSpace.  These are modelled here at the character-list level
(ASCII case folding and ASCII whitespace, which covers every role tag the
configuration validator accepts). -/

def lowerChar (c : Char) : Char :=
  if 65 ≤ c.toNat ∧ c.toNat ≤ 90 then Char.ofNat (c.toNat + 32) else c

def isSpaceChar (c : Char) : Bool :=
  c == ' ' || c == '\t' || c == '\n' || c == '\r' || c == '\x0b' || c == '\x0c'

/-- Model of strings.ToLower from the Go standard library. -/
def toLowerModel (s : String) : String := ⟨s.data.map lowerChar⟩

/-- Model of strings.TrimSpace from the Go standard library. -/
def trimModel (s : String) : String :=
  ⟨((s.data.dropWhile isSpaceChar).reverse.dropWhile isSpaceChar).reverse⟩

/-! ### Data model (pkg/config: Config and Host structures) -/

structure LogicalVolume where
  lvName : String := ""
  size : String := ""
  mountPoint : String := ""
deriving DecidableEq

structure LVMConfig where
  vgName : String := ""
  pvDevices : List String := []
  lvs : List LogicalVolume := []
deriving DecidableEq

/-- Host from pkg/config/config.go.  Field defaults model the Go zero
values taken by omitted YAML fields. -/
structure Host where
  ip : String := ""
  internalIP : String := ""
  nodeName : String := ""
  user : String := ""
  password : String := ""
  sshKey : String := ""
  role : List String := []
  rbdRole : List String := []
  nodeTaint : List String := []
  mysqlMaster : Bool := false
  mysqlSlave : Bool := false
  lvmConfig : Option LVMConfig := none
deriving DecidableEq

structure RKE2Config where
  registryConfig : String := ""
deriving DecidableEq

/-- RainbondConfig from pkg/config.  The free-form Values map (YAML
interface map) is not needed by any claim and is not modelled. -/
structure RainbondConfig where
  version : String := ""
  nameSpace : String := ""
deriving DecidableEq

structure MySQLConfig where
  enabled : Bool := false
  rootPassword : String := ""
  replUser : String := ""
  replPassword : String := ""
  storageSize : String := ""
  dataPath : String := ""
deriving DecidableEq

structure Config where
  hosts : List Host := []
  rke2 : RKE2Config := {}
  rainbond : RainbondConfig := {}
  mysql : MySQLConfig := {}
deriving DecidableEq

/-! ### Topology resolution (internal/rke2/rke2.go) -/

def RKE2DefaultToken : String := "9L1wA2hTP3DmqYf3eDSeWB4J"

/-- normalizeRoles: trim and lowercase every tag, dropping empty results. -/
def normalizeRoles (roles : List String) : List String :=
  (roles.map (fun r => trimModel (toLowerModel r))).filter (fun r => r ≠ "")

/-- hasRole: membership test on a role list. -/
def hasRole (roles : List String) (targetRole : String) : Bool :=
  roles.contains targetRole

/-- Predicate shared by getServerHosts, getEtcdHosts, getFirstEtcdHost and
checkRKE2Status: the host carries an etcd or master tag. -/
def isServerHost (h : Host) : Bool :=
  hasRole (normalizeRoles h.role) "etcd" || hasRole (normalizeRoles h.role) "master"

/-- getServerHosts: hosts with a master or etcd role. -/
def getServerHosts (hosts : List Host) : List Host :=
  hosts.filter (fun h =>
    hasRole (normalizeRoles h.role) "master" || hasRole (normalizeRoles h.role) "etcd")

/-- getAgentHosts: pure worker hosts (worker tag, no master or etcd tag). -/
def getAgentHosts (hosts : List Host) : List Host :=
  hosts.filter (fun h =>
    hasRole (normalizeRoles h.role) "worker"
      && !hasRole (normalizeRoles h.role) "master"
      && !hasRole (normalizeRoles h.role) "etcd")

/-- getFirstEtcdHost: the first host, in declaration order, carrying an
etcd or master tag. -/
def getFirstEtcdHost : List Host → Option Host
  | [] => none
  | h :: rest =>
    if hasRole (normalizeRoles h.role) "etcd" || hasRole (normalizeRoles h.role) "master"
    then some h else getFirstEtcdHost rest

/-- getEtcdHosts: every host carrying an etcd or master tag. -/
def getEtcdHosts (hosts : List Host) : List Host :=
  hosts.filter (fun h =>
    hasRole (normalizeRoles h.role) "etcd" || hasRole (normalizeRoles h.role) "master")

/-- getMasterHosts: every host carrying a master tag. -/
def getMasterHosts (hosts : List Host) : List Host :=
  hosts.filter (fun h => hasRole (normalizeRoles h.role) "master")

/-- hasWorkerNodes: some host has a worker tag and neither etcd nor master. -/
def hasWorkerNodes (hosts : List Host) : Bool :=
  hosts.any (fun h =>
    hasRole (normalizeRoles h.role) "worker"
      && !hasRole (normalizeRoles h.role) "etcd"
      && !hasRole (normalizeRoles h.role) "master")

/-! ### Scheduling policy (getRecommendedTaints) -/

/-- getRecommendedTaints: explicit user taints are returned verbatim (the
warning about NoSchedule without workers is log-only); otherwise
control-plane hosts get the hard NoSchedule taint when a dedicated worker
pool exists and the PreferNoSchedule variant when it does not. -/
def getRecommendedTaints (hosts : List Host) (host : Host) : List String :=
  let roles := normalizeRoles host.role
  let isControlPlane := hasRole roles "etcd" || hasRole roles "master"
  if host.nodeTaint ≠ [] then
    host.nodeTaint
  else if !isControlPlane then
    []
  else if hasWorkerNodes hosts then
    ["node-role.kubernetes.io/control-plane:NoSchedule"]
  else
    ["node-role.kubernetes.io/control-plane:PreferNoSchedule"]

/-! ### Generated configuration files (createRKE2Config, createRegistryConfig) -/

def getNodeName (host : Host) : String :=
  if host.nodeName ≠ "" then host.nodeName else host.ip

def getNodeIP (host : Host) : String := host.ip

/-- getServerURL: IP of the first server host, empty when there is none. -/
def getServerURL (hosts : List Host) : String :=
  match getServerHosts hosts with
  | [] => ""
  | h :: _ => getNodeIP h

/-- getNodeConfigSection: the per-node section of the generated main
configuration file. -/
def getNodeConfigSection (hosts : List Host) (host : Host) : String :=
  let nodeName := getNodeName host
  let lines0 := ["# 节点配置", "node-name: " ++ nodeName]
  let lines1 := lines0 ++ ["node-ip: " ++ host.internalIP]
  let lines2 :=
    if host.ip ≠ host.internalIP then lines1 ++ ["node-external-ip: " ++ host.ip] else lines1
  let taints := getRecommendedTaints hosts host
  let lines3 :=
    if taints ≠ [] then
      lines2 ++ ["# 节点污点配置 - 智能调度策略", "node-taint:"]
        ++ taints.map (fun t => "  - \"" ++ t ++ "\"")
    else lines2
  String.intercalate "\n" lines3

/-- createRKE2Config: the content of the generated main configuration
file (config.yaml), by node type and role, exactly following the Sprintf
templates of the source. -/
def rke2MainConfig (hosts : List Host) (host : Host) (nodeType : String)
    (isFirstServer : Bool) : String :=
  let serverURL := getServerURL hosts
  let roles := normalizeRoles host.role
  let nodeConfig := getNodeConfigSection hosts host
  if nodeType = "server" then
    if isFirstServer then
      if hasRole roles "etcd" && !hasRole roles "master" then
        "# RKE2 第一个etcd节点配置\ntoken: " ++ RKE2DefaultToken ++ "\n" ++ nodeConfig
          ++ "\n# 专用etcd节点配置\ndisable-apiserver: true\ndisable-controller-manager: true\ndisable-scheduler: true\n"
      else
        "# RKE2 第一个master节点配置\ntoken: " ++ RKE2DefaultToken ++ "\n" ++ nodeConfig ++ "\n"
    else
      if hasRole roles "etcd" && !hasRole roles "master" then
        "# RKE2 etcd节点配置\nserver: https://" ++ serverURL ++ ":9345\ntoken: "
          ++ RKE2DefaultToken ++ "\n" ++ nodeConfig
          ++ "\n# 专用etcd节点配置\ndisable-apiserver: true\ndisable-controller-manager: true\ndisable-scheduler: true\n"
      else if hasRole roles "master" && !hasRole roles "etcd" then
        "# RKE2 master节点配置\nserver: https://" ++ serverURL ++ ":9345\ntoken: "
          ++ RKE2DefaultToken ++ "\n" ++ nodeConfig
          ++ "\n# 专用control-plane节点配置\ndisable-etcd: true\n"
      else if hasRole roles "master" && hasRole roles "etcd" then
        "# RKE2 混合节点配置 (master+etcd)\nserver: https://" ++ serverURL ++ ":9345\ntoken: "
          ++ RKE2DefaultToken ++ "\n" ++ nodeConfig ++ "\n"
      else ""
  else
    "# RKE2 worker节点配置\nserver: https://" ++ serverURL ++ ":9345\ntoken: "
      ++ RKE2DefaultToken ++ "\n" ++ nodeConfig ++ "\n"

/-- createRegistryConfig: the content written to
/etc/rancher/rke2/registries.yaml; a fixed literal with no input
dependence. -/
def registryConfigContent : String :=
  "mirrors:\n  \"goodrain.me\":\n    endpoint:\n      - \"https://goodrain.me\"\nconfigs:\n  \"goodrain.me\":\n    auth:\n      username: admin\n      password: admin1234\n    tls:\n      insecure_skip_verify: true"

/-! ### MySQL default (pkg/config SetDefaultMySQLConfig) -/

/-- SetDefaultMySQLConfig: when some host is marked as MySQL master or
slave, force the enabled flag to true (overwriting whatever the user
configured). -/
def setDefaultMySQLConfig (c : Config) : Config :=
  let hasMySQLNodes := c.hosts.any (fun h => h.mysqlMaster || h.mysqlSlave)
  if hasMySQLNodes then
    { c with mysql := { c.mysql with enabled := true } }
  else c

/-- IsMySQLEnabled from pkg/config. -/
def isMySQLEnabled (c : Config) : Bool :=
  c.hosts.any (fun h => h.mysqlMaster || h.mysqlSlave)

/-! ### Artifact transfer (transferFileWithProgress)

The remote observations (local file info, remote probe before and after,
success of the transfer command) are given by an environment record; the
function returns the outcome together with the trace of remote probe and
transfer commands it issued. -/

/-- FileInfo from rke2.go: size, human-readable size and md5 checksum.
Only size and md5 take part in comparisons. -/
structure FileInfo where
  size : Int
  sizeHuman : String := ""
  md5 : String
deriving DecidableEq

/-- Size and checksum comparison used by the skip check and the
post-transfer verification. -/
def fileInfoMatches (a b : FileInfo) : Bool :=
  a.size == b.size && a.md5 == b.md5

structure TransferEnv where
  localInfo : Option FileInfo
  remoteBefore : Option FileInfo
  transferOk : Bool
  remoteAfter : Option FileInfo

inductive TransferEffect
  | probeRemote
  | transferCmd
deriving DecidableEq

inductive TransferErr
  | localMissing
  | transferFailed
  | verifyProbeFailed
  | verifyMismatch
deriving DecidableEq

/-- Transfer step plus post-transfer re-probe and comparison of
transferFileWithProgress (after the skip check decided to transfer). -/
def transferAndVerify (li : FileInfo) (env : TransferEnv) :
    Except TransferErr Unit × List TransferEffect :=
  if !env.transferOk then
    (.error .transferFailed, [.probeRemote, .transferCmd])
  else
    match env.remoteAfter with
    | none => (.error .verifyProbeFailed, [.probeRemote, .transferCmd, .probeRemote])
    | some fi =>
      if fi.size != li.size || fi.md5 != li.md5 then
        (.error .verifyMismatch, [.probeRemote, .transferCmd, .probeRemote])
      else
        (.ok (), [.probeRemote, .transferCmd, .probeRemote])

/-- transferFileWithProgress: skip when the remote probe succeeds and both
size and md5 match the local file, otherwise transfer and re-verify. -/
def transferFileModel (env : TransferEnv) :
    Except TransferErr Unit × List TransferEffect :=
  match env.localInfo with
  | none => (.error .localMissing, [])
  | some li =>
    match env.remoteBefore with
    | some ri =>
      if ri.size == li.size && ri.md5 == li.md5 then
        (.ok (), [.probeRemote])
      else
        transferAndVerify li env
    | none => transferAndVerify li env

/-! ### Node state probing (checkRKE2Installed, checkRKE2Status) -/

/-- Outcome of the independent remote probes checkRKE2Installed and
checkRKE2Status run against one host.  probeError models a failing ssh
command (other than the regular exit code 1 of the installed check). -/
structure NodeSignals where
  probeError : Bool := false
  serverUnit : Bool := false
  agentUnit : Bool := false
  binaryExists : Bool := false
  dataDir : Bool := false
  configDir : Bool := false
  serverActive : Bool := false
  agentActive : Bool := false
  nodeReadyOnSeed : Bool := false
deriving DecidableEq

/-- checkRKE2Installed: installed when some RKE2 service is active, or
when the binary, both directories and at least one unit file exist. -/
def checkRKE2Installed (s : NodeSignals) : Bool :=
  (s.serverActive || s.agentActive)
    || (s.binaryExists && (s.dataDir && s.configDir) && (s.serverUnit || s.agentUnit))

/-- Node installation states, named after the status strings of
checkRKE2Status (未安装, 已安装未运行, 服务运行中但节点未就绪, 运行中,
检查失败). -/
inductive NodeStatus
  | checkFailed
  | notInstalled
  | installedNotRunning
  | runningNotReady
  | running
deriving DecidableEq

/-- checkRKE2Status fold for one host: probe error, else the installed
check, else the role-appropriate service activity refined by the
node-ready query executed on the seed host. -/
def checkRKE2Status (isServer : Bool) (s : NodeSignals) : NodeStatus :=
  if s.probeError then .checkFailed
  else if !checkRKE2Installed s then .notInstalled
  else if (if isServer then s.serverActive else s.agentActive) then
    (if s.nodeReadyOnSeed then .running else .runningNotReady)
  else .installedNotRunning

/-- Status of one host given the per-IP probe outcomes. -/
def hostStatus (sig : String → NodeSignals) (h : Host) : NodeStatus :=
  checkRKE2Status (isServerHost h) (sig h.ip)

/-- checkRKE2Status builds a map keyed by host IP, so a later host with
the same IP overwrites an earlier one.  The entries are, for each distinct
IP, the status computed for the last host declaring it. -/
def statusMapEntries (hosts : List Host) (sig : String → NodeSignals) :
    List (String × NodeStatus) :=
  (hosts.map Host.ip).dedup.filterMap
    (fun ip => ((hosts.filter (fun h => h.ip == ip)).getLast?).map
      (fun h => (ip, hostStatus sig h)))

def statusMapValues (hosts : List Host) (sig : String → NodeSignals) : List NodeStatus :=
  (statusMapEntries hosts sig).map Prod.snd

/-- IPs whose probed status equals the given one (used for the failed and
warned host lists of the final report). -/
def ipsWithStatus (hosts : List Host) (sig : String → NodeSignals)
    (st : NodeStatus) : List String :=
  ((statusMapEntries hosts sig).filter (fun e => e.2 == st)).map Prod.fst

/-! ### The phased rollout engine (Run) -/

inductive Phase
  | seedPhase
  | etcdPhase
  | masterPhase
  | workerPhase
deriving DecidableEq

/-- Side-effecting remote operations issued by Run, in order. -/
inductive Effect
  | probeStatus
  | transferAll
  | validateAll
  | install (ip : String) (phase : Phase)
  | waitSeed
  | waitCluster
deriving DecidableEq

inductive RunErr
  | noHosts
  | noSeed
  | transferFailed
  | validateFailed
  | installFailed (ip : String)
  | seedNotReady (ip : String)
  | clusterNotReady
  | incompleteRollout (failed : List String)
deriving DecidableEq

/-- Warnings and flags of a successful Run. -/
structure RunReport where
  skippedInstall : Bool
  clusterWarn : Bool
  warnNotRunningIps : List String
  startupDelayWarn : Bool
deriving DecidableEq

/-- Remote-world oracle: outcome of every remote observation Run makes. -/
structure Oracle where
  initialSignals : String → NodeSignals
  finalSignals : String → NodeSignals
  transferOk : Bool
  validateOk : Bool
  installOk : String → Bool
  seedReady : Bool
  clusterReady : Bool

/-- Final classification (phase 7 of Run): count as installed the map
entries reporting 运行中 or 已安装未运行, fail with the incomplete-rollout
error (listing the IPs whose status is 未安装) when fewer than the number
of hosts are installed, otherwise warn about hosts that are installed but
not running. -/
def finalOutcome (hosts : List Host) (o : Oracle) : Except RunErr RunReport :=
  let finalValues := statusMapValues hosts o.finalSignals
  let finalRunning := finalValues.countP (fun s => s == NodeStatus.running)
  let finalInstalled := finalValues.countP
    (fun s => s == NodeStatus.running || s == NodeStatus.installedNotRunning)
  if finalInstalled < hosts.length then
    .error (.incompleteRollout (ipsWithStatus hosts o.finalSignals .notInstalled))
  else
    .ok { skippedInstall := false, clusterWarn := false,
          warnNotRunningIps := ipsWithStatus hosts o.finalSignals .installedNotRunning,
          startupDelayWarn := decide (finalRunning < hosts.length) }

/-- One sequential install loop over a phase: abort on the first failing
host, emitting one install call per visited host. -/
def installPhaseLoop (ips : List String) (phase : Phase) (ok : String → Bool) :
    Except RunErr Unit × List Effect :=
  match ips with
  | [] => (.ok (), [])
  | ip :: rest =>
    if ok ip then
      let r := installPhaseLoop rest phase ok
      (r.1, .install ip phase :: r.2)
    else
      (.error (.installFailed ip), [.install ip phase])

/-- Run from internal/rke2/rke2.go: phase 1 probes every host and, when
every map entry reports 运行中, skips installation and only re-checks
cluster convergence (downgrading its failure to a warning); otherwise
transfer, validate, install the seed, wait for it, install remaining etcd
and master and worker hosts sequentially, wait for cluster convergence
(fatal on timeout here), monitor, and classify the final probe, failing
with the incomplete-rollout error when fewer map entries than hosts are
installed, listing the IPs whose status is 未安装.  The bounded phase 6
monitor loop only re-probes and never fails; it is modelled as a single
probe effect. -/
def runModel (hosts : List Host) (o : Oracle) :
    Except RunErr RunReport × List Effect :=
  if hosts.isEmpty then (.error .noHosts, [])
  else
    match getFirstEtcdHost hosts with
    | none => (.error .noSeed, [])
    | some first =>
      let runningCount := (statusMapValues hosts o.initialSignals).countP
        (fun s => s == NodeStatus.running)
      if runningCount = hosts.length then
        (.ok { skippedInstall := true, clusterWarn := !o.clusterReady,
               warnNotRunningIps := [], startupDelayWarn := false },
         [.probeStatus, .waitCluster])
      else if !o.transferOk then
        (.error .transferFailed, [.probeStatus, .transferAll])
      else if !o.validateOk then
        (.error .validateFailed, [.probeStatus, .transferAll, .validateAll])
      else if !o.installOk first.ip then
        (.error (.installFailed first.ip),
         [.probeStatus, .transferAll, .validateAll, .install first.ip .seedPhase])
      else if !o.seedReady then
        (.error (.seedNotReady first.ip),
         [.probeStatus, .transferAll, .validateAll, .install first.ip .seedPhase, .waitSeed])
      else
        let pre : List Effect :=
          [.probeStatus, .transferAll, .validateAll, .install first.ip .seedPhase, .waitSeed]
        let etcdIps := ((getEtcdHosts hosts).filter (fun h => h.ip ≠ first.ip)).map Host.ip
        let masterIps := ((getMasterHosts hosts).filter (fun h => h.ip ≠ first.ip)).map Host.ip
        let workerIps := (getAgentHosts hosts).map Host.ip
        let e := installPhaseLoop etcdIps .etcdPhase o.installOk
        match e.1 with
        | .error err => (.error err, pre ++ e.2)
        | .ok _ =>
          let m := installPhaseLoop masterIps .masterPhase o.installOk
          match m.1 with
          | .error err => (.error err, pre ++ e.2 ++ m.2)
          | .ok _ =>
            let w := installPhaseLoop workerIps .workerPhase o.installOk
            match w.1 with
            | .error err => (.error err, pre ++ e.2 ++ m.2 ++ w.2)
            | .ok _ =>
              let pre2 := pre ++ e.2 ++ m.2 ++ w.2
              if !o.clusterReady then
                (.error .clusterNotReady, pre2 ++ [.waitCluster])
              else
                (finalOutcome hosts o, pre2 ++ [.waitCluster, .probeStatus, .probeStatus])

/-- The per-host install calls of a run, in order, with their phase. -/
def installTrace (hosts : List Host) (o : Oracle) : List (String × Phase) :=
  (runModel hosts o).2.filterMap
    (fun eff => match eff with
      | .install ip phase => some (ip, phase)
      | _ => none)

end Roi

namespace Roi

/-! ### Helper lemmas shared by several results -/

theorem getFirstEtcdHost_none_iff (hosts : List Host) :
    getFirstEtcdHost hosts = none ↔ ∀ h ∈ hosts, isServerHost h = false := by
  induction hosts with
  | nil => simp [getFirstEtcdHost]
  | cons a t ih =>
    by_cases ha : isServerHost a = true
    · simp [getFirstEtcdHost, isServerHost] at ha ⊢
      rcases ha with ha | ha <;> simp [ha]
    · simp only [Bool.not_eq_true] at ha
      have ha2 : (hasRole (normalizeRoles a.role) "etcd"
          || hasRole (normalizeRoles a.role) "master") = false := ha
      simp [getFirstEtcdHost, ha2, ih, ha]

theorem getFirstEtcdHost_decomp (hosts : List Host) (h : Host)
    (hh : getFirstEtcdHost hosts = some h) :
    ∃ pre post, hosts = pre ++ h :: post ∧ (∀ x ∈ pre, isServerHost x = false)
      ∧ isServerHost h = true := by
  induction hosts with
  | nil => simp [getFirstEtcdHost] at hh
  | cons a t ih =>
    by_cases ha : (hasRole (normalizeRoles a.role) "etcd"
        || hasRole (normalizeRoles a.role) "master") = true
    · refine ⟨[], t, ?_, by simp, ?_⟩
      · simp [getFirstEtcdHost, ha] at hh
        simp [hh]
      · simp [getFirstEtcdHost, ha] at hh
        subst hh
        exact ha
    · simp only [Bool.not_eq_true] at ha
      simp only [getFirstEtcdHost, ha, Bool.false_eq_true, if_false] at hh
      obtain ⟨pre, post, heq, hpre, hsrv⟩ := ih hh
      exact ⟨a :: pre, post, by simp [heq], by
        intro x hx
        rcases List.mem_cons.mp hx with rfl | hx
        · exact ha
        · exact hpre x hx, hsrv⟩

theorem getFirstEtcdHost_mem (hosts : List Host) (h : Host)
    (hh : getFirstEtcdHost hosts = some h) : h ∈ hosts := by
  obtain ⟨pre, post, heq, -, -⟩ := getFirstEtcdHost_decomp hosts h hh
  subst heq
  simp

theorem getFirstEtcdHost_isServer (hosts : List Host) (h : Host)
    (hh : getFirstEtcdHost hosts = some h) : isServerHost h = true := by
  obtain ⟨-, -, -, -, hs⟩ := getFirstEtcdHost_decomp hosts h hh
  exact hs

theorem installPhaseLoop_fst (ips : List String) (phase : Phase) (ok : String → Bool) :
    (installPhaseLoop ips phase ok).1 = .ok ()
      ∨ ∃ ip, (installPhaseLoop ips phase ok).1 = .error (.installFailed ip) := by
  induction ips with
  | nil => simp [installPhaseLoop]
  | cons ip rest ih =>
    by_cases hok : ok ip = true
    · simpa [installPhaseLoop, hok] using ih
    · simp only [Bool.not_eq_true] at hok
      exact Or.inr ⟨ip, by simp [installPhaseLoop, hok]⟩

theorem installPhaseLoop_all_ok (ips : List String) (phase : Phase) (ok : String → Bool)
    (hok : ∀ ip ∈ ips, ok ip = true) :
    installPhaseLoop ips phase ok = (.ok (), ips.map (fun ip => Effect.install ip phase)) := by
  induction ips with
  | nil => simp [installPhaseLoop]
  | cons ip rest ih =>
    have h1 : ok ip = true := hok ip (by simp)
    have h2 := ih (fun x hx => hok x (by simp [hx]))
    simp [installPhaseLoop, h1, h2]

end Roi

namespace Roi

theorem filter_ip_eq_singleton (hosts : List Host) (h : Host) (hmem : h ∈ hosts)
    (hnd : (hosts.map Host.ip).Nodup) :
    hosts.filter (fun x => x.ip == h.ip) = [h] := by
  induction hosts with
  | nil => simp at hmem
  | cons a t ih =>
    simp only [List.map_cons, List.nodup_cons] at hnd
    rcases List.mem_cons.mp hmem with rfl | hmem
    · have hnone : t.filter (fun x => x.ip == h.ip) = [] := by
        refine List.filter_eq_nil_iff.mpr ?_
        intro x hx
        simp only [beq_iff_eq]
        intro hxip
        exact hnd.1 (hxip ▸ List.mem_map_of_mem Host.ip hx)
      simp [List.filter_cons, hnone]
    · have hane : (a.ip == h.ip) = false := by
        simp only [beq_eq_false_iff_ne, ne_eq]
        intro haip
        exact hnd.1 (haip ▸ List.mem_map_of_mem Host.ip hmem)
      simp [List.filter_cons, hane, ih hmem hnd.2]

theorem filterMap_eq_map_of_forall {α β : Type} (l : List α) (f : α → Option β) (g : α → β)
    (h : ∀ a ∈ l, f a = some (g a)) : l.filterMap f = l.map g := by
  induction l with
  | nil => simp
  | cons a t ih =>
    rw [List.filterMap_cons, h a (by simp), List.map_cons,
      ih (fun x hx => h x (by simp [hx]))]

theorem statusMapEntries_of_nodup (hosts : List Host) (sig : String → NodeSignals)
    (hnd : (hosts.map Host.ip).Nodup) :
    statusMapEntries hosts sig = hosts.map (fun h => (h.ip, hostStatus sig h)) := by
  unfold statusMapEntries
  rw [List.dedup_eq_self.mpr hnd, List.filterMap_map]
  refine filterMap_eq_map_of_forall hosts _ _ ?_
  intro h hmem
  simp only [Function.comp_apply]
  rw [filter_ip_eq_singleton hosts h hmem hnd]
  rfl

theorem statusMapValues_of_nodup (hosts : List Host) (sig : String → NodeSignals)
    (hnd : (hosts.map Host.ip).Nodup) :
    statusMapValues hosts sig = hosts.map (hostStatus sig) := by
  unfold statusMapValues
  rw [statusMapEntries_of_nodup hosts sig hnd, List.map_map]
  rfl

theorem ipsWithStatus_of_nodup (hosts : List Host) (sig : String → NodeSignals)
    (st : NodeStatus) (hnd : (hosts.map Host.ip).Nodup) :
    ipsWithStatus hosts sig st
      = (hosts.filter (fun h => hostStatus sig h == st)).map Host.ip := by
  unfold ipsWithStatus
  rw [statusMapEntries_of_nodup hosts sig hnd, List.filter_map, List.map_map]
  rfl

end Roi

namespace Roi

/-- Install effects of a full successful pass through phases 2 to 4. -/
def mainInstallEffects (hosts : List Host) (first : Host) : List Effect :=
  [.probeStatus, .transferAll, .validateAll, .install first.ip .seedPhase, .waitSeed]
    ++ (((getEtcdHosts hosts).filter (fun h => h.ip ≠ first.ip)).map Host.ip).map
      (fun ip => Effect.install ip .etcdPhase)
    ++ (((getMasterHosts hosts).filter (fun h => h.ip ≠ first.ip)).map Host.ip).map
      (fun ip => Effect.install ip .masterPhase)
    ++ ((getAgentHosts hosts).map Host.ip).map (fun ip => Effect.install ip .workerPhase)

theorem ne_nil_of_first (hosts : List Host) (first : Host)
    (hfirst : getFirstEtcdHost hosts = some first) : hosts ≠ [] := by
  rintro rfl
  simp [getFirstEtcdHost] at hfirst

theorem runModel_skip (hosts : List Host) (o : Oracle) (first : Host)
    (hfirst : getFirstEtcdHost hosts = some first)
    (hall : (statusMapValues hosts o.initialSignals).countP
      (fun s => s == NodeStatus.running) = hosts.length) :
    runModel hosts o =
      (.ok { skippedInstall := true, clusterWarn := !o.clusterReady,
             warnNotRunningIps := [], startupDelayWarn := false },
       [.probeStatus, .waitCluster]) := by
  have hne := ne_nil_of_first hosts first hfirst
  have hie : hosts.isEmpty = false := by simpa using hne
  simp only [runModel, hie, Bool.false_eq_true, if_false, hfirst, hall, if_true]

theorem runModel_main (hosts : List Host) (o : Oracle) (first : Host)
    (hfirst : getFirstEtcdHost hosts = some first)
    (hnoskip : (statusMapValues hosts o.initialSignals).countP
      (fun s => s == NodeStatus.running) ≠ hosts.length)
    (htr : o.transferOk = true) (hv : o.validateOk = true)
    (hio : ∀ ip, o.installOk ip = true) (hs : o.seedReady = true) :
    runModel hosts o =
      if o.clusterReady then
        (finalOutcome hosts o,
         mainInstallEffects hosts first ++ [.waitCluster, .probeStatus, .probeStatus])
      else
        (.error .clusterNotReady, mainInstallEffects hosts first ++ [.waitCluster]) := by
  have hne := ne_nil_of_first hosts first hfirst
  have hie : hosts.isEmpty = false := by simpa using hne
  have he := installPhaseLoop_all_ok
    (((getEtcdHosts hosts).filter (fun h => h.ip ≠ first.ip)).map Host.ip)
    .etcdPhase o.installOk (fun ip _ => hio ip)
  have hm := installPhaseLoop_all_ok
    (((getMasterHosts hosts).filter (fun h => h.ip ≠ first.ip)).map Host.ip)
    .masterPhase o.installOk (fun ip _ => hio ip)
  have hw := installPhaseLoop_all_ok ((getAgentHosts hosts).map Host.ip)
    .workerPhase o.installOk (fun ip _ => hio ip)
  simp only [runModel, hie, Bool.false_eq_true, if_false, hfirst, hnoskip, htr, hv,
    hio first.ip, hs, Bool.not_true, he, hm, hw, mainInstallEffects]
  cases hcr : o.clusterReady <;> simp [List.append_assoc]

end Roi

namespace Roi

theorem runModel_fst_ne_noSeed (hosts : List Host) (o : Oracle) (first : Host)
    (hfirst : getFirstEtcdHost hosts = some first) :
    (runModel hosts o).1 ≠ .error .noSeed := by
  have hne := ne_nil_of_first hosts first hfirst
  have hie : hosts.isEmpty = false := by simpa using hne
  simp only [runModel, hie, Bool.false_eq_true, if_false, hfirst]
  split
  · simp
  · split
    · simp
    · split
      · simp
      · split
        · simp
        · split
          · simp
          · split
            · next err heq =>
              rcases installPhaseLoop_fst
                  (((getEtcdHosts hosts).filter (fun h => h.ip ≠ first.ip)).map Host.ip)
                  .etcdPhase o.installOk with hok | ⟨ip, hi⟩
              · rw [hok] at heq; simp at heq
              · rw [hi] at heq
                obtain rfl : RunErr.installFailed ip = err := by
                  simpa using heq
                simp
            · split
              · next err heq =>
                rcases installPhaseLoop_fst
                    (((getMasterHosts hosts).filter (fun h => h.ip ≠ first.ip)).map Host.ip)
                    .masterPhase o.installOk with hok | ⟨ip, hi⟩
                · rw [hok] at heq; simp at heq
                · rw [hi] at heq
                  obtain rfl : RunErr.installFailed ip = err := by
                    simpa using heq
                  simp
              · split
                · next err heq =>
                  rcases installPhaseLoop_fst ((getAgentHosts hosts).map Host.ip)
                      .workerPhase o.installOk with hok | ⟨ip, hi⟩
                  · rw [hok] at heq; simp at heq
                  · rw [hi] at heq
                    obtain rfl : RunErr.installFailed ip = err := by
                      simpa using heq
                    simp
                · split
                  · simp
                  · simp only [finalOutcome]
                    split <;> simp

end Roi

namespace Roi

theorem runModel_noSeed_iff (hosts : List Host) (o : Oracle) :
    (runModel hosts o).1 = .error .noSeed
      ↔ (hosts ≠ [] ∧ ∀ h ∈ hosts, isServerHost h = false) := by
  rcases hhosts : hosts with _ | ⟨a, t⟩
  · simp [runModel]
  · rw [← hhosts]
    have hie : hosts.isEmpty = false := by simp [hhosts]
    cases hfe : getFirstEtcdHost hosts with
    | none =>
      simp only [runModel, hie, Bool.false_eq_true, if_false, hfe]
      constructor
      · intro
        exact ⟨by simp [hhosts], (getFirstEtcdHost_none_iff hosts).mp hfe⟩
      · intro
        trivial
    | some first =>
      constructor
      · intro hcontra
        exact absurd hcontra (runModel_fst_ne_noSeed hosts o first hfe)
      · rintro ⟨-, hall⟩
        rw [(getFirstEtcdHost_none_iff hosts).mpr hall] at hfe
        exact absurd hfe (by simp)

end Roi

namespace Roi

theorem ip_ne_of_nodup (hosts : List Host) (h1 h2 : Host) (hm1 : h1 ∈ hosts)
    (hm2 : h2 ∈ hosts) (hnd : (hosts.map Host.ip).Nodup) (hne : h1 ≠ h2) :
    h1.ip ≠ h2.ip := by
  intro heq
  exact hne (List.inj_on_of_nodup_map hnd hm1 hm2 heq)

theorem countP_ip_of_nodup (hosts : List Host) (h : Host) (q : Host → Bool)
    (hmem : h ∈ hosts) (hnd : (hosts.map Host.ip).Nodup) :
    hosts.countP (fun x => (x.ip == h.ip) && q x) = if q h then 1 else 0 := by
  induction hosts with
  | nil => simp at hmem
  | cons a t ih =>
    simp only [List.map_cons, List.nodup_cons] at hnd
    rcases List.mem_cons.mp hmem with rfl | hmem
    · have hzero : t.countP (fun x => (x.ip == h.ip) && q x) = 0 := by
        refine List.countP_eq_zero.mpr ?_
        intro x hx
        simp only [Bool.and_eq_true, beq_iff_eq, not_and]
        intro hxip
        exact absurd (hxip ▸ List.mem_map_of_mem Host.ip hx) hnd.1
      rw [List.countP_cons, hzero]
      simp
    · have hane : (a.ip == h.ip) = false := by
        simp only [beq_eq_false_iff_ne, ne_eq]
        intro haip
        exact hnd.1 (haip ▸ List.mem_map_of_mem Host.ip hmem)
      rw [List.countP_cons, ih hmem hnd.2]
      simp [hane]

/-- Numeric index of the rollout phases, in execution order. -/
def phaseIdx : Phase → Nat
  | .seedPhase => 0
  | .etcdPhase => 1
  | .masterPhase => 2
  | .workerPhase => 3

theorem installExtract_filterMap (ph : Phase) (l : List Host) :
    List.filterMap
      ((fun eff => match eff with | Effect.install ip phase => some (ip, phase) | _ => none)
        ∘ (fun ip => Effect.install ip ph) ∘ Host.ip) l
      = (l.map Host.ip).map (fun ip => (ip, ph)) := by
  induction l with
  | nil => rfl
  | cons a t ih => simp only [List.filterMap_cons, List.map_cons, Function.comp_apply, ih]

theorem installTrace_main (hosts : List Host) (o : Oracle) (first : Host)
    (hfirst : getFirstEtcdHost hosts = some first)
    (hnoskip : (statusMapValues hosts o.initialSignals).countP
      (fun s => s == NodeStatus.running) ≠ hosts.length)
    (htr : o.transferOk = true) (hv : o.validateOk = true)
    (hio : ∀ ip, o.installOk ip = true) (hs : o.seedReady = true) :
    installTrace hosts o =
      (first.ip, Phase.seedPhase)
        :: ((((getEtcdHosts hosts).filter (fun h => h.ip ≠ first.ip)).map Host.ip).map
              (fun ip => (ip, Phase.etcdPhase))
            ++ (((getMasterHosts hosts).filter (fun h => h.ip ≠ first.ip)).map Host.ip).map
              (fun ip => (ip, Phase.masterPhase))
            ++ ((getAgentHosts hosts).map Host.ip).map
              (fun ip => (ip, Phase.workerPhase))) := by
  unfold installTrace
  rw [runModel_main hosts o first hfirst hnoskip htr hv hio hs]
  cases hcr : o.clusterReady <;>
    simp [mainInstallEffects, List.filterMap_append, installExtract_filterMap,
      List.filterMap_cons]

end Roi

namespace Roi

theorem countP_ip_segment (hosts : List Host) (h : Host) (p : Host → Bool) (ph : Phase)
    (hmem : h ∈ hosts) (hnd : (hosts.map Host.ip).Nodup) :
    List.countP (fun c : String × Phase => c.1 == h.ip)
      (((hosts.filter p).map Host.ip).map (fun ip => (ip, ph)))
      = if p h then 1 else 0 := by
  rw [List.countP_map, List.countP_map, List.countP_filter]
  exact countP_ip_of_nodup hosts h p hmem hnd

theorem pairwise_phase_const (ips : List String) (ph : Phase) :
    List.Pairwise (fun a b : String × Phase => phaseIdx a.2 ≤ phaseIdx b.2)
      (ips.map (fun ip => (ip, ph))) := by
  induction ips with
  | nil => simp
  | cons a t ih =>
    simp only [List.map_cons]
    refine List.Pairwise.cons ?_ ih
    intro b hb
    obtain ⟨ip, -, rfl⟩ := List.mem_map.mp hb
    exact le_refl _

theorem snd_of_mem_phase_map (ips : List String) (ph : Phase) (c : String × Phase)
    (hc : c ∈ ips.map (fun ip => (ip, ph))) : c.2 = ph := by
  obtain ⟨ip, -, rfl⟩ := List.mem_map.mp hc
  rfl

end Roi

namespace Roi

/-- C1 (amended): under a run that reaches the install phases, the install
calls are the seed first, then the other etcd-or-master hosts, then the
non-seed master hosts again, then the pure workers; phases never go
backwards, pure workers and non-seed etcd-only hosts get exactly one
install call, but a non-seed master-tagged host gets two (one in the etcd
phase and one in the master phase). -/
theorem run_install_order (hosts : List Host) (o : Oracle) (first : Host)
    (hfirst : getFirstEtcdHost hosts = some first)
    (hnd : (hosts.map Host.ip).Nodup)
    (hnoskip : (statusMapValues hosts o.initialSignals).countP
      (fun s => s == NodeStatus.running) ≠ hosts.length)
    (htr : o.transferOk = true) (hv : o.validateOk = true)
    (hio : ∀ ip, o.installOk ip = true) (hs : o.seedReady = true) :
    (installTrace hosts o).head? = some (first.ip, Phase.seedPhase)
    ∧ (installTrace hosts o).Pairwise (fun a b => phaseIdx a.2 ≤ phaseIdx b.2)
    ∧ (∀ h ∈ hosts, hasRole (normalizeRoles h.role) "worker" = true →
        isServerHost h = false →
        (installTrace hosts o).countP (fun c => c.1 == h.ip) = 1)
    ∧ (∀ h ∈ hosts, hasRole (normalizeRoles h.role) "etcd" = true →
        hasRole (normalizeRoles h.role) "master" = false → h ≠ first →
        (installTrace hosts o).countP (fun c => c.1 == h.ip) = 1)
    ∧ (∀ h ∈ hosts, hasRole (normalizeRoles h.role) "master" = true → h ≠ first →
        (installTrace hosts o).countP (fun c => c.1 == h.ip) = 2) := by
  have htrace := installTrace_main hosts o first hfirst hnoskip htr hv hio hs
  have hfmem := getFirstEtcdHost_mem hosts first hfirst
  refine ⟨?_, ?_, ?_, ?_, ?_⟩
  · rw [htrace]
    rfl
  · rw [htrace]
    refine List.Pairwise.cons ?_ ?_
    · intro b hb
      exact Nat.zero_le _
    · rw [List.pairwise_append, List.pairwise_append]
      refine ⟨⟨pairwise_phase_const _ _, pairwise_phase_const _ _, ?_⟩,
        pairwise_phase_const _ _, ?_⟩
      · intro a ha b hb
        rw [snd_of_mem_phase_map _ _ _ ha, snd_of_mem_phase_map _ _ _ hb]
        decide
      · intro a ha b hb
        rw [snd_of_mem_phase_map _ _ _ hb]
        rcases List.mem_append.mp ha with ha | ha <;>
          rw [snd_of_mem_phase_map _ _ _ ha] <;> decide
  · intro h hm hw hns
    have hsrvE : (hasRole (normalizeRoles h.role) "etcd"
        || hasRole (normalizeRoles h.role) "master") = false := hns
    rw [htrace, List.countP_cons, List.countP_append, List.countP_append]
    simp only [getEtcdHosts, getMasterHosts, getAgentHosts, List.filter_filter]
    rw [countP_ip_segment hosts h _ _ hm hnd, countP_ip_segment hosts h _ _ hm hnd,
      countP_ip_segment hosts h _ _ hm hnd]
    have h1 : hasRole (normalizeRoles h.role) "master" = false := by
      cases hmr : hasRole (normalizeRoles h.role) "master"
      · rfl
      · simp [hmr] at hsrvE
    have h2 : hasRole (normalizeRoles h.role) "etcd" = false := by
      cases her : hasRole (normalizeRoles h.role) "etcd"
      · rfl
      · simp [her] at hsrvE
    have hfip : (first.ip == h.ip) = false := by
      simp only [beq_eq_false_iff_ne, ne_eq]
      refine ip_ne_of_nodup hosts first h hfmem hm hnd (fun he => ?_)
      have hsrv := getFirstEtcdHost_isServer hosts first hfirst
      rw [he, hns] at hsrv
      exact absurd hsrv (by simp)
    simp [h1, h2, hw, hfip]
  · intro h hm he hnm hne
    rw [htrace, List.countP_cons, List.countP_append, List.countP_append]
    simp only [getEtcdHosts, getMasterHosts, getAgentHosts, List.filter_filter]
    rw [countP_ip_segment hosts h _ _ hm hnd, countP_ip_segment hosts h _ _ hm hnd,
      countP_ip_segment hosts h _ _ hm hnd]
    have hip : h.ip ≠ first.ip := ip_ne_of_nodup hosts h first hm hfmem hnd hne
    have hfip : (first.ip == h.ip) = false := by
      simp only [beq_eq_false_iff_ne, ne_eq]
      exact fun hx => hip hx.symm
    simp [he, hnm, hip, hfip]
  · intro h hm hmr hne
    rw [htrace, List.countP_cons, List.countP_append, List.countP_append]
    simp only [getEtcdHosts, getMasterHosts, getAgentHosts, List.filter_filter]
    rw [countP_ip_segment hosts h _ _ hm hnd, countP_ip_segment hosts h _ _ hm hnd,
      countP_ip_segment hosts h _ _ hm hnd]
    have hip : h.ip ≠ first.ip := ip_ne_of_nodup hosts h first hm hfmem hnd hne
    have hfip : (first.ip == h.ip) = false := by
      simp only [beq_eq_false_iff_ne, ne_eq]
      exact fun hx => hip hx.symm
    simp [hmr, hip, hfip]

end Roi

namespace Roi

/-! ### Concrete fixtures used by counterexamples and witnesses -/

def hostEtcd1 : Host :=
  { ip := "10.0.0.1", internalIP := "10.0.0.1", user := "root", password := "pw",
    role := ["etcd"] }

def hostMaster2 : Host :=
  { ip := "10.0.0.2", internalIP := "10.0.0.2", user := "root", password := "pw",
    role := ["master"] }

def hostWorker3 : Host :=
  { ip := "10.0.0.3", internalIP := "10.0.0.3", user := "root", password := "pw",
    role := ["worker"] }

def hostAll4 : Host :=
  { ip := "10.0.0.4", internalIP := "10.0.0.4", user := "root", password := "pw",
    role := ["etcd", "master", "worker"] }

def hostControl9 : Host :=
  { ip := "10.0.0.9", internalIP := "10.0.0.9", user := "root", password := "pw",
    role := ["control"] }

def threeHosts : List Host := [hostEtcd1, hostMaster2, hostWorker3]

def sigAbsent : NodeSignals := {}

def sigReady : NodeSignals :=
  { serverUnit := true, agentUnit := true, binaryExists := true, dataDir := true,
    configDir := true, serverActive := true, agentActive := true, nodeReadyOnSeed := true }

def sigRunningNotReady : NodeSignals := { sigReady with nodeReadyOnSeed := false }

def sigInstalledOnly : NodeSignals :=
  { serverUnit := true, agentUnit := true, binaryExists := true, dataDir := true,
    configDir := true }

/-- A fresh cluster: nothing installed initially, every remote step
succeeds, everything is ready at the end. -/
def oracleFresh : Oracle :=
  { initialSignals := fun _ => sigAbsent, finalSignals := fun _ => sigReady,
    transferOk := true, validateOk := true, installOk := fun _ => true,
    seedReady := true, clusterReady := true }

def oracleNoCluster : Oracle := { oracleFresh with clusterReady := false }

def oracleAllReady : Oracle := { oracleFresh with initialSignals := fun _ => sigReady }

def oracleAllReadyNoCluster : Oracle := { oracleAllReady with clusterReady := false }

def oracleFinalNotReady : Oracle :=
  { oracleFresh with
    finalSignals := fun ip => if ip = "10.0.0.3" then sigRunningNotReady else sigReady }

def oracleFinalAbsent : Oracle :=
  { oracleFresh with
    finalSignals := fun ip => if ip = "10.0.0.3" then sigAbsent else sigReady }

def oracleFinalInstalledOnly : Oracle :=
  { oracleFresh with
    finalSignals := fun ip => if ip = "10.0.0.3" then sigInstalledOnly else sigReady }

end Roi

namespace Roi

/-- C1 counterexample: on the fresh three-node cluster etcd, master,
worker, the install-call sequence visits the master-tagged host 10.0.0.2
twice, once in the etcd phase and once in the master phase, so not every
host receives its install call in exactly one phase. -/
theorem run_install_order_counterexample :
    installTrace threeHosts oracleFresh =
      [("10.0.0.1", Phase.seedPhase), ("10.0.0.2", Phase.etcdPhase),
       ("10.0.0.2", Phase.masterPhase), ("10.0.0.3", Phase.workerPhase)]
    ∧ (installTrace threeHosts oracleFresh).countP
        (fun c => c.1 == "10.0.0.2") = 2 :=
  ⟨rfl, rfl⟩

/-- Witness for run_install_order: concrete fresh three-node cluster. -/
theorem run_install_order_witness :
    (installTrace threeHosts oracleFresh).countP (fun c => c.1 == "10.0.0.3") = 1 :=
  (run_install_order threeHosts oracleFresh hostEtcd1 rfl (by decide) (by decide)
      rfl rfl (fun _ => rfl) rfl).2.2.1 hostWorker3 (by decide) (by decide) (by decide)

/-- C2 counterexample: a host whose only tag is control is not selected as
bootstrap seed and the run fails with the no-seed error, although the tag
control is present after normalization. -/
theorem seed_selection_counterexample :
    "control" ∈ normalizeRoles hostControl9.role
    ∧ getFirstEtcdHost [hostControl9] = none
    ∧ (runModel [hostControl9] oracleFresh).1 = .error .noSeed :=
  ⟨by decide, rfl, rfl⟩

/-- C2 (amended): the bootstrap seed is the first host in declaration
order whose normalized role tags contain etcd or master (control does not
qualify), and the run fails with the no-seed error exactly when the host
list is non-empty and no host carries an etcd or master tag. -/
theorem seed_selection_spec (hosts : List Host) (o : Oracle) :
    (∀ first, getFirstEtcdHost hosts = some first →
      ∃ pre post, hosts = pre ++ first :: post
        ∧ (∀ x ∈ pre, isServerHost x = false) ∧ isServerHost first = true)
    ∧ ((runModel hosts o).1 = .error .noSeed
        ↔ (hosts ≠ [] ∧ ∀ h ∈ hosts, isServerHost h = false)) :=
  ⟨fun first hf => getFirstEtcdHost_decomp hosts first hf,
   runModel_noSeed_iff hosts o⟩

/-- Witness for seed_selection_spec at a concrete control-only host. -/
theorem seed_selection_spec_witness :
    (runModel [hostControl9] oracleFresh).1 = .error .noSeed :=
  (seed_selection_spec [hostControl9] oracleFresh).2.mpr (by decide)

/-- C3 counterexample: on a fresh cluster whose convergence wait times
out, Run returns an error instead of completing with a warning. -/
theorem convergence_timeout_counterexample :
    (runModel threeHosts oracleNoCluster).1 = .error .clusterNotReady := rfl

/-- C3 (amended): exhausting the cluster-convergence wait is fatal in the
full-rollout path (Run returns the convergence error); only in the skip
path, entered when every host is already running at the initial probe, is
the convergence failure downgraded to a warning and the run completes
successfully. -/
theorem convergence_timeout_behavior (hosts : List Host) (o : Oracle) (first : Host)
    (hfirst : getFirstEtcdHost hosts = some first)
    (hcl : o.clusterReady = false) :
    ((statusMapValues hosts o.initialSignals).countP
        (fun s => s == NodeStatus.running) = hosts.length →
      runModel hosts o =
        (.ok { skippedInstall := true, clusterWarn := true,
               warnNotRunningIps := [], startupDelayWarn := false },
         [.probeStatus, .waitCluster]))
    ∧ ((statusMapValues hosts o.initialSignals).countP
          (fun s => s == NodeStatus.running) ≠ hosts.length →
        o.transferOk = true → o.validateOk = true →
        (∀ ip, o.installOk ip = true) → o.seedReady = true →
        (runModel hosts o).1 = .error .clusterNotReady) := by
  constructor
  · intro hall
    have hskip := runModel_skip hosts o first hfirst hall
    rw [hcl] at hskip
    simpa using hskip
  · intro hnoskip htr hv hio hs
    rw [runModel_main hosts o first hfirst hnoskip htr hv hio hs, hcl]
    simp

/-- Witness for convergence_timeout_behavior: both branches at concrete
clusters. -/
theorem convergence_timeout_behavior_witness :
    runModel threeHosts oracleAllReadyNoCluster =
      (.ok { skippedInstall := true, clusterWarn := true,
             warnNotRunningIps := [], startupDelayWarn := false },
       [.probeStatus, .waitCluster])
    ∧ (runModel threeHosts oracleNoCluster).1 = .error .clusterNotReady :=
  ⟨(convergence_timeout_behavior threeHosts oracleAllReadyNoCluster hostEtcd1 rfl rfl).1
      (by decide),
   (convergence_timeout_behavior threeHosts oracleNoCluster hostEtcd1 rfl rfl).2
      (by decide) rfl rfl (fun _ => rfl) rfl⟩

/-- C7: when the initial probe reports every host ready (运行中), Run
skips every rollout phase: the only effects are the initial probe and the
final cluster-convergence check, no transfer, validation or install call
is issued, and the result is success. -/
theorem ready_cluster_skips_install (hosts : List Host) (o : Oracle) (first : Host)
    (hfirst : getFirstEtcdHost hosts = some first)
    (hnd : (hosts.map Host.ip).Nodup)
    (hready : ∀ h ∈ hosts, hostStatus o.initialSignals h = .running) :
    runModel hosts o =
      (.ok { skippedInstall := true, clusterWarn := !o.clusterReady,
             warnNotRunningIps := [], startupDelayWarn := false },
       [.probeStatus, .waitCluster]) := by
  have hall : (statusMapValues hosts o.initialSignals).countP
      (fun s => s == NodeStatus.running) = hosts.length := by
    rw [statusMapValues_of_nodup hosts _ hnd, List.countP_map]
    refine List.countP_eq_length.mpr ?_
    intro a ha
    simp [Function.comp, hready a ha]
  exact runModel_skip hosts o first hfirst hall

/-- Witness for ready_cluster_skips_install on a concrete ready cluster. -/
theorem ready_cluster_skips_install_witness :
    runModel threeHosts oracleAllReady =
      (.ok { skippedInstall := true, clusterWarn := false,
             warnNotRunningIps := [], startupDelayWarn := false },
       [.probeStatus, .waitCluster]) :=
  ready_cluster_skips_install threeHosts oracleAllReady hostEtcd1 rfl (by decide)
    (by decide)

end Roi

namespace Roi

/-- C8 counterexample: a host whose final state is 服务运行中但节点未就绪
(running, node not ready) is not counted as installed, so Run aborts with
the fatal incomplete-rollout error, whose failed list does not even name
the host. -/
theorem final_report_counterexample :
    hostStatus oracleFinalNotReady.finalSignals hostWorker3 = .runningNotReady
    ∧ (runModel threeHosts oracleFinalNotReady).1 = .error (.incompleteRollout []) :=
  ⟨rfl, rfl⟩

/-- C8 (amended): after a full rollout, a host probed 未安装 makes Run
fail with the incomplete-rollout error listing exactly the absent hosts;
hosts probed 已安装未运行 only produce warnings and the run succeeds; but
a host probed 服务运行中但节点未就绪 also aborts the run with the fatal
error, while not being named in its failed list. -/
theorem final_report_classification (hosts : List Host) (o : Oracle) (first : Host)
    (hfirst : getFirstEtcdHost hosts = some first)
    (hnd : (hosts.map Host.ip).Nodup)
    (hnoskip : (statusMapValues hosts o.initialSignals).countP
      (fun s => s == NodeStatus.running) ≠ hosts.length)
    (htr : o.transferOk = true) (hv : o.validateOk = true)
    (hio : ∀ ip, o.installOk ip = true) (hs : o.seedReady = true)
    (hcl : o.clusterReady = true) :
    ((∃ h ∈ hosts, hostStatus o.finalSignals h = .notInstalled) →
      (runModel hosts o).1 = .error (.incompleteRollout
        ((hosts.filter (fun h => hostStatus o.finalSignals h == NodeStatus.notInstalled)).map
          Host.ip)))
    ∧ ((∀ h ∈ hosts, hostStatus o.finalSignals h = .running
          ∨ hostStatus o.finalSignals h = .installedNotRunning) →
        (runModel hosts o).1 = .ok
          { skippedInstall := false, clusterWarn := false,
            warnNotRunningIps :=
              (hosts.filter
                (fun h => hostStatus o.finalSignals h == NodeStatus.installedNotRunning)).map
                Host.ip,
            startupDelayWarn := decide
              ((hosts.countP (fun h => hostStatus o.finalSignals h == NodeStatus.running))
                < hosts.length) })
    ∧ ((∃ h ∈ hosts, hostStatus o.finalSignals h = .runningNotReady) →
        ∃ failed, (runModel hosts o).1 = .error (.incompleteRollout failed)
          ∧ ∀ h ∈ hosts, hostStatus o.finalSignals h = .runningNotReady →
              h.ip ∉ failed) := by
  have hrun := runModel_main hosts o first hfirst hnoskip htr hv hio hs
  rw [hcl, if_pos rfl] at hrun
  have hres : (runModel hosts o).1 = finalOutcome hosts o := by rw [hrun]
  have hvals := statusMapValues_of_nodup hosts o.finalSignals hnd
  have hfmem := getFirstEtcdHost_mem hosts first hfirst
  refine ⟨?_, ?_, ?_⟩
  · rintro ⟨h, hm, hst⟩
    have hlt : (statusMapValues hosts o.finalSignals).countP
        (fun s => s == NodeStatus.running || s == NodeStatus.installedNotRunning)
        < hosts.length := by
      rw [hvals, List.countP_map]
      refine Nat.lt_of_le_of_ne (le_trans (List.countP_le_length _) (by simp)) ?_
      intro heq
      have := List.countP_eq_length.mp heq h hm
      simp [Function.comp, hst] at this
    rw [hres]
    simp only [finalOutcome]
    rw [if_pos hlt, ipsWithStatus_of_nodup hosts o.finalSignals _ hnd]
  · intro hall
    have heq : (statusMapValues hosts o.finalSignals).countP
        (fun s => s == NodeStatus.running || s == NodeStatus.installedNotRunning)
        = hosts.length := by
      rw [hvals, List.countP_map]
      refine List.countP_eq_length.mpr ?_
      intro a ha
      rcases hall a ha with h | h <;> simp [Function.comp, h]
    rw [hres]
    simp only [finalOutcome]
    rw [if_neg (by omega), ipsWithStatus_of_nodup hosts o.finalSignals _ hnd,
      hvals, List.countP_map]
    rfl
  · rintro ⟨h, hm, hst⟩
    have hlt : (statusMapValues hosts o.finalSignals).countP
        (fun s => s == NodeStatus.running || s == NodeStatus.installedNotRunning)
        < hosts.length := by
      rw [hvals, List.countP_map]
      refine Nat.lt_of_le_of_ne (le_trans (List.countP_le_length _) (by simp)) ?_
      intro heq
      have := List.countP_eq_length.mp heq h hm
      simp [Function.comp, hst] at this
    refine ⟨(hosts.filter
        (fun x => hostStatus o.finalSignals x == NodeStatus.notInstalled)).map Host.ip,
      ?_, ?_⟩
    · rw [hres]
      simp only [finalOutcome]
      rw [if_pos hlt, ipsWithStatus_of_nodup hosts o.finalSignals _ hnd]
    · intro h2 hm2 hst2 hmem
      obtain ⟨x, hx, hxip⟩ := List.mem_map.mp hmem
      obtain ⟨hxmem, hxst⟩ := List.mem_filter.mp hx
      have : x = h2 := List.inj_on_of_nodup_map hnd hxmem hm2 hxip
      rw [this, hst2] at hxst
      simp at hxst

end Roi

namespace Roi

/-- Witness for final_report_classification: a concrete absent host and a
concrete installed-but-not-running host. -/
theorem final_report_classification_witness :
    (runModel threeHosts oracleFinalAbsent).1
      = .error (.incompleteRollout ["10.0.0.3"])
    ∧ (runModel threeHosts oracleFinalInstalledOnly).1 = .ok
        { skippedInstall := false, clusterWarn := false,
          warnNotRunningIps := ["10.0.0.3"], startupDelayWarn := true } :=
  ⟨(final_report_classification threeHosts oracleFinalAbsent hostEtcd1 rfl (by decide)
      (by decide) rfl rfl (fun _ => rfl) rfl rfl).1 ⟨hostWorker3, by decide, by decide⟩,
   (final_report_classification threeHosts oracleFinalInstalledOnly hostEtcd1 rfl
      (by decide) (by decide) rfl rfl (fun _ => rfl) rfl rfl).2.1 (by decide)⟩

/-! ### C6: the node-state fold of the claim and its amendment -/

/-- Node-state fold exactly as the claim words it: active role service
gives running-not-ready or ready; else binary, directories and a unit file
give installed-not-running; else absent. -/
def claimNodeStateFold (isServer : Bool) (s : NodeSignals) : NodeStatus :=
  if (if isServer then s.serverActive else s.agentActive) then
    (if s.nodeReadyOnSeed then .running else .runningNotReady)
  else if s.binaryExists && (s.dataDir && s.configDir) && (s.serverUnit || s.agentUnit) then
    .installedNotRunning
  else .notInstalled

/-- Node-state fold as amended: the absent test uses the full installed
check of the code, which also passes when any RKE2 service (server or
agent) is active, not only when binary, directories and a unit file all
exist. -/
def amendedNodeStateFold (isServer : Bool) (s : NodeSignals) : NodeStatus :=
  if !checkRKE2Installed s then .notInstalled
  else if (if isServer then s.serverActive else s.agentActive) then
    (if s.nodeReadyOnSeed then .running else .runningNotReady)
  else .installedNotRunning

/-- C6 counterexample: a master-tagged host where only the agent service
is active and no file exists is classified 已安装未运行 by the code, while
the fold of the claim classifies it absent. -/
theorem node_state_fold_counterexample :
    checkRKE2Status true { agentActive := true } = .installedNotRunning
    ∧ claimNodeStateFold true { agentActive := true } = .notInstalled
    ∧ NodeStatus.installedNotRunning ≠ NodeStatus.notInstalled :=
  ⟨rfl, rfl, by decide⟩

/-- C6 (amended): outside probe errors, the code folds the probe signals
exactly as the amended description does. -/
theorem node_state_fold_amended (isServer : Bool) (s : NodeSignals)
    (hp : s.probeError = false) :
    checkRKE2Status isServer s = amendedNodeStateFold isServer s := by
  obtain ⟨pe, su, au, bi, dd, cd, sa, aa, nr⟩ := s
  simp only at hp
  subst hp
  revert isServer su au bi dd cd sa aa nr
  decide

/-- Witness for node_state_fold_amended at the counterexample signals. -/
theorem node_state_fold_amended_witness :
    checkRKE2Status true { agentActive := true }
      = amendedNodeStateFold true { agentActive := true } :=
  node_state_fold_amended true { agentActive := true } rfl

end Roi

namespace Roi

/-- C4: the artifact skip law.  When the remote probe succeeds and both
size and checksum match the local file, no transfer command is issued;
when no remote copy matches, exactly one transfer command is issued, on
success exactly one re-probe follows (two probes in total), and a
post-transfer mismatch in size or checksum makes the operation return the
verification error. -/
theorem artifact_transfer_spec (env : TransferEnv) (li : FileInfo)
    (hl : env.localInfo = some li) :
    ((∃ ri, env.remoteBefore = some ri ∧ fileInfoMatches ri li = true) →
      transferFileModel env = (.ok (), [.probeRemote]))
    ∧ ((∀ ri, env.remoteBefore = some ri → fileInfoMatches ri li = false) →
        ((transferFileModel env).2.countP (fun e => e == TransferEffect.transferCmd) = 1
        ∧ (env.transferOk = true →
            (transferFileModel env).2.countP (fun e => e == TransferEffect.probeRemote) = 2)
        ∧ (env.transferOk = true → ∀ fi, env.remoteAfter = some fi →
            fileInfoMatches fi li = false →
            (transferFileModel env).1 = .error .verifyMismatch))) := by
  constructor
  · rintro ⟨ri, hrb, hmatch⟩
    simp only [fileInfoMatches] at hmatch
    simp [transferFileModel, hl, hrb, hmatch]
  · intro hnomatch
    have hbranch : transferFileModel env = transferAndVerify li env := by
      simp only [transferFileModel, hl]
      cases hrb : env.remoteBefore with
      | none => rfl
      | some ri =>
        have := hnomatch ri hrb
        simp only [fileInfoMatches] at this
        simp [this]
    rw [hbranch]
    refine ⟨?_, ?_, ?_⟩
    · unfold transferAndVerify
      cases htok : env.transferOk with
      | false => rfl
      | true =>
        cases hra : env.remoteAfter with
        | none => rfl
        | some fi =>
          simp only [Bool.not_true, Bool.false_eq_true, if_false]
          split <;> rfl
    · intro htok
      unfold transferAndVerify
      rw [htok]
      cases hra : env.remoteAfter with
      | none => rfl
      | some fi =>
        simp only [Bool.not_true, Bool.false_eq_true, if_false]
        split <;> rfl
    · intro htok fi hra hmm
      unfold transferAndVerify
      rw [htok, hra]
      have : (fi.size != li.size || fi.md5 != li.md5) = true := by
        simp only [fileInfoMatches, Bool.and_eq_true] at hmm
        rcases Bool.and_eq_false_iff.mp hmm with h | h <;> simp [bne, h]
      simp [this]

end Roi

namespace Roi

def fileInfoA : FileInfo := { size := 100, md5 := "aaaa" }

def fileInfoB : FileInfo := { size := 100, md5 := "bbbb" }

def envSkip : TransferEnv :=
  { localInfo := some fileInfoA, remoteBefore := some fileInfoA,
    transferOk := true, remoteAfter := some fileInfoA }

def envMismatch : TransferEnv :=
  { localInfo := some fileInfoA, remoteBefore := none,
    transferOk := true, remoteAfter := some fileInfoB }

/-- Witness for artifact_transfer_spec: a matching remote copy is skipped,
a corrupted transfer returns the verification error. -/
theorem artifact_transfer_spec_witness :
    transferFileModel envSkip = (.ok (), [.probeRemote])
    ∧ (transferFileModel envMismatch).1 = .error .verifyMismatch :=
  ⟨(artifact_transfer_spec envSkip fileInfoA rfl).1 ⟨fileInfoA, rfl, by decide⟩,
   ((artifact_transfer_spec envMismatch fileInfoA rfl).2
      (fun ri h => by simp [envMismatch] at h)).2.2 rfl fileInfoB rfl (by decide)⟩

/-- C5: the taint deriver is a pure function of host and topology:
explicit user taints are returned unchanged for every host; with no user
taints, a control-plane-eligible host receives exactly the hard NoSchedule
control-plane taint when some host carries a worker tag without etcd or
master tags, and exactly the PreferNoSchedule variant otherwise. -/
theorem taint_policy_spec (hosts : List Host) (host : Host) :
    (host.nodeTaint ≠ [] → getRecommendedTaints hosts host = host.nodeTaint)
    ∧ (host.nodeTaint = [] → isServerHost host = true →
        ((∃ h ∈ hosts, hasRole (normalizeRoles h.role) "worker" = true
            ∧ hasRole (normalizeRoles h.role) "etcd" = false
            ∧ hasRole (normalizeRoles h.role) "master" = false) →
          getRecommendedTaints hosts host
            = ["node-role.kubernetes.io/control-plane:NoSchedule"])
        ∧ (¬(∃ h ∈ hosts, hasRole (normalizeRoles h.role) "worker" = true
            ∧ hasRole (normalizeRoles h.role) "etcd" = false
            ∧ hasRole (normalizeRoles h.role) "master" = false) →
          getRecommendedTaints hosts host
            = ["node-role.kubernetes.io/control-plane:PreferNoSchedule"])) := by
  have hiff : hasWorkerNodes hosts = true
      ↔ (∃ h ∈ hosts, hasRole (normalizeRoles h.role) "worker" = true
          ∧ hasRole (normalizeRoles h.role) "etcd" = false
          ∧ hasRole (normalizeRoles h.role) "master" = false) := by
    unfold hasWorkerNodes
    rw [List.any_eq_true]
    constructor
    · rintro ⟨h, hm, hp⟩
      simp only [Bool.and_eq_true, Bool.not_eq_true'] at hp
      exact ⟨h, hm, hp.1.1, hp.1.2, hp.2⟩
    · rintro ⟨h, hm, hw, he, hmr⟩
      exact ⟨h, hm, by simp [hw, he, hmr]⟩
  constructor
  · intro hnt
    simp [getRecommendedTaints, hnt]
  · intro hnt hsrv
    have hcp : (hasRole (normalizeRoles host.role) "etcd"
        || hasRole (normalizeRoles host.role) "master") = true := hsrv
    constructor
    · intro hex
      have hw : hasWorkerNodes hosts = true := hiff.mpr hex
      simp [getRecommendedTaints, hnt, hcp, hw]
    · intro hnex
      have hw : hasWorkerNodes hosts = false := by
        cases hx : hasWorkerNodes hosts
        · rfl
        · exact absurd (hiff.mp hx) hnex
      simp [getRecommendedTaints, hnt, hcp, hw]

/-- Witness for taint_policy_spec: the single host etcd+master+worker has
no dedicated worker pool and receives the PreferNoSchedule variant; with a
dedicated worker the control-plane hosts receive the NoSchedule taint. -/
theorem taint_policy_spec_witness :
    getRecommendedTaints [hostAll4] hostAll4
      = ["node-role.kubernetes.io/control-plane:PreferNoSchedule"]
    ∧ getRecommendedTaints threeHosts hostEtcd1
      = ["node-role.kubernetes.io/control-plane:NoSchedule"] :=
  ⟨((taint_policy_spec [hostAll4] hostAll4).2 rfl (by decide)).2 (by decide),
   ((taint_policy_spec threeHosts hostEtcd1).2 rfl (by decide)).1
      ⟨hostWorker3, by decide, by decide, by decide, by decide⟩⟩

/-- C9: whenever some host is marked MySQL master or slave, the loaded
configuration has the MySQL enabled flag forced to true, whatever value
(including an explicit false) the user configured. -/
theorem mysql_enabled_override (c : Config)
    (h : ∃ hh ∈ c.hosts, hh.mysqlMaster = true ∨ hh.mysqlSlave = true) :
    (setDefaultMySQLConfig c).mysql.enabled = true := by
  obtain ⟨hh, hm, hms⟩ := h
  have hany : c.hosts.any (fun x => x.mysqlMaster || x.mysqlSlave) = true := by
    rw [List.any_eq_true]
    exact ⟨hh, hm, by rcases hms with h | h <;> simp [h]⟩
  simp [setDefaultMySQLConfig, hany]

def cfgMySQLDisabled : Config :=
  { hosts := [{ ip := "10.0.0.5", internalIP := "10.0.0.5", user := "root",
                password := "pw", role := ["master"], mysqlMaster := true }],
    mysql := { enabled := false } }

/-- Witness for mysql_enabled_override: an explicit enabled false is
silently overridden. -/
theorem mysql_enabled_override_witness :
    cfgMySQLDisabled.mysql.enabled = false
    ∧ (setDefaultMySQLConfig cfgMySQLDisabled).mysql.enabled = true :=
  ⟨rfl, mysql_enabled_override cfgMySQLDisabled (by decide)⟩

end Roi

namespace Roi

theorem string_data_append (a b : String) : (a ++ b).data = a.data ++ b.data := rfl

theorem string_eq_of_data (a b : String) (h : a.data = b.data) : a = b := by
  cases a
  cases b
  cases h
  rfl

theorem tokenLine_split (cfg pre rest : String)
    (h : cfg = pre ++ ("token: " ++ RKE2DefaultToken ++ "\n") ++ rest) :
    ("token: " ++ RKE2DefaultToken ++ "\n").data <:+: cfg.data := by
  subst h
  exact ⟨pre.data, rest.data, by simp [string_data_append]⟩

set_option maxRecDepth 4000 in
/-- C10: the join token written into every generated node configuration
file is the compile-time constant RKE2DefaultToken, and the generated
registries file is one fixed literal containing the constant credentials
admin and admin1234; neither depends on any user-supplied input, so the
values written for any two configurations and any two hosts are
identical. -/
theorem fixed_credentials (hosts : List Host) (host : Host) (nodeType : String)
    (isFirstServer : Bool)
    (hsrv : nodeType = "server" → isFirstServer = false → isServerHost host = true) :
    ("token: " ++ RKE2DefaultToken ++ "\n").data
        <:+: (rke2MainConfig hosts host nodeType isFirstServer).data
    ∧ ("username: admin").data <:+: registryConfigContent.data
    ∧ ("password: admin1234").data <:+: registryConfigContent.data := by
  refine ⟨?_, by decide, by decide⟩
  simp only [rke2MainConfig]
  by_cases hnt : nodeType = "server"
  · rw [if_pos hnt]
    cases hf : isFirstServer
    · simp only [Bool.false_eq_true, if_false]
      cases he : hasRole (normalizeRoles host.role) "etcd"
        <;> cases hm : hasRole (normalizeRoles host.role) "master"
      · have := hsrv hnt hf
        rw [isServerHost, he, hm] at this
        simp at this
      · simp only [he, hm, Bool.false_and, Bool.and_false, Bool.true_and, Bool.and_true,
          Bool.not_false, Bool.not_true, Bool.false_eq_true, if_false, if_true]
        exact tokenLine_split _
          ("# RKE2 master节点配置\nserver: https://" ++ getServerURL hosts ++ ":9345\n")
          (getNodeConfigSection hosts host ++ "\n# 专用control-plane节点配置\ndisable-etcd: true\n")
          (string_eq_of_data _ _ (by
            simp only [string_data_append, List.append_assoc, List.cons_append,
              List.nil_append]))
      · simp only [he, hm, Bool.not_false, Bool.true_and, Bool.and_true, if_true]
        exact tokenLine_split _
          ("# RKE2 etcd节点配置\nserver: https://" ++ getServerURL hosts ++ ":9345\n")
          (getNodeConfigSection hosts host
            ++ "\n# 专用etcd节点配置\ndisable-apiserver: true\ndisable-controller-manager: true\ndisable-scheduler: true\n")
          (string_eq_of_data _ _ (by
            simp only [string_data_append, List.append_assoc, List.cons_append,
              List.nil_append]))
      · simp only [he, hm, Bool.not_true, Bool.and_false, Bool.true_and, Bool.and_true,
          Bool.false_eq_true, if_false, if_true]
        exact tokenLine_split _
          ("# RKE2 混合节点配置 (master+etcd)\nserver: https://" ++ getServerURL hosts ++ ":9345\n")
          (getNodeConfigSection hosts host ++ "\n")
          (string_eq_of_data _ _ (by
            simp only [string_data_append, List.append_assoc, List.cons_append,
              List.nil_append]))
    · simp only [if_true]
      cases he : hasRole (normalizeRoles host.role) "etcd"
        <;> cases hm : hasRole (normalizeRoles host.role) "master"
        <;> simp only [he, hm, Bool.false_and, Bool.and_false, Bool.true_and, Bool.and_true,
              Bool.not_false, Bool.not_true, Bool.false_eq_true, if_false, if_true]
      · exact tokenLine_split _ "# RKE2 第一个master节点配置\n"
          (getNodeConfigSection hosts host ++ "\n")
          (string_eq_of_data _ _ (by
            simp only [string_data_append, List.append_assoc, List.cons_append,
              List.nil_append]))
      · exact tokenLine_split _ "# RKE2 第一个master节点配置\n"
          (getNodeConfigSection hosts host ++ "\n")
          (string_eq_of_data _ _ (by
            simp only [string_data_append, List.append_assoc, List.cons_append,
              List.nil_append]))
      · exact tokenLine_split _ "# RKE2 第一个etcd节点配置\n"
          (getNodeConfigSection hosts host
            ++ "\n# 专用etcd节点配置\ndisable-apiserver: true\ndisable-controller-manager: true\ndisable-scheduler: true\n")
          (string_eq_of_data _ _ (by
            simp only [string_data_append, List.append_assoc, List.cons_append,
              List.nil_append]))
      · exact tokenLine_split _ "# RKE2 第一个master节点配置\n"
          (getNodeConfigSection hosts host ++ "\n")
          (string_eq_of_data _ _ (by
            simp only [string_data_append, List.append_assoc, List.cons_append,
              List.nil_append]))
  · rw [if_neg hnt]
    exact tokenLine_split _
      ("# RKE2 worker节点配置\nserver: https://" ++ getServerURL hosts ++ ":9345\n")
      (getNodeConfigSection hosts host ++ "\n")
      (string_eq_of_data _ _ (by
        simp only [string_data_append, List.append_assoc, List.cons_append,
          List.nil_append]))

/-- Witness for fixed_credentials at a concrete joining master host. -/
theorem fixed_credentials_witness :
    ("token: " ++ RKE2DefaultToken ++ "\n").data
      <:+: (rke2MainConfig threeHosts hostMaster2 "server" false).data :=
  (fixed_credentials threeHosts hostMaster2 "server" false
    (fun _ _ => by decide)).1

end Roi
